import Mathlib

/-!
The camera / flashlight motion model of `src/coomer.cpp`.

A shallow embedding of the numeric core of `coomer.cpp` (the structs `Vec2f`, `Config`,
`Mouse`, `Camera`, `FlashLight`, the event handlers of `main` and the per-frame updates),
followed by the properties of the specification that are settled against it.

Numeric model.  A C++ `float` is modelled by an exact rational number: every operation is
the exact one, there is no rounding of a computed value and no overflow.  A literal of the
source stands for the value the program holds: `0.01` in a `float` member is the float
`5368709 / 536870912`, and the `double` literal `0.8`, once stored in the `float` member
`shadow`, is the float `13421773 / 16777216` (`FLOAT_0_8`), which is above `4 / 5`.  All
other literals of the source are exact in both formats.  Two more places need care.

* Division.  `Vec2f::operator/(float)` divides with no guard; in exact arithmetic a
  division by zero has no value (IEEE gives an infinity or a NaN).  It is therefore a
  partial operation, `Vec2f.div`, that yields `none` for a zero divisor.  `Camera::position`
  is only ever accumulated into and never read by a branch, so a position that has no
  finite value is carried as `none` and stays `none` until a reset; all other fields are
  always finite.
* Square root.  `Vec2f::length` is `std::sqrt (x*x + y*y)`, which is not a rational
  function.  `Vec2f.length` and `Vec2f.normalize` take the square-root function as an
  argument; the one comparison the frame update makes, `velocity.length() > 15.0`, is
  decided on the squares (`Vec2f.lengthSq`), which is the same test for every exact square
  root (`Vec2f.length_gt_iff`).
-/

namespace Coomer

/-! ## Constants (coomer.cpp, lines 11-13) -/

/-- The constant `INITIAL_FL_DELTA_RADIUS = 250.0`. -/
def INITIAL_FL_DELTA_RADIUS : ℚ := 250

/-- The constant `FL_DELTA_RADIUS_DECELERATION = 10.0`. -/
def FL_DELTA_RADIUS_DECELERATION : ℚ := 10

/-- The constant `VELOCITY_THRESHOLD = 15.0`. -/
def VELOCITY_THRESHOLD : ℚ := 15

/-- The `double` literal `0.8` of line 119: the double nearest to `4 / 5`. -/
def DOUBLE_0_8 : ℚ := 3602879701896397 / 4503599627370496

/-- The float nearest to the `double` literal `0.8`: what the `float` member `shadow`
holds once that double has been stored in it. -/
def FLOAT_0_8 : ℚ := 13421773 / 16777216

/-- The narrowing of the `double` value of `std::min (shadow + 6.0 * dt, 0.8)` at its
store into the `float` member `shadow`: the constant `0.8`, a double that no float equals,
becomes the nearest float; a computed value is stored as it is, like every other
arithmetic result of this model. -/
def narrow (d : ℚ) : ℚ := if d = DOUBLE_0_8 then FLOAT_0_8 else d

/-! ## Vec2f (lines 15-55) -/

/-- The struct `Vec2f`; the default constructor gives `(0, 0)`. -/
@[ext]
structure Vec2f where
  x : ℚ := 0
  y : ℚ := 0
deriving DecidableEq, Repr

namespace Vec2f

/-- The default-constructed vector `Vec2f()`. -/
def zero : Vec2f := {}

/-- The operator `Vec2f operator*(float s)`. -/
def smul (v : Vec2f) (s : ℚ) : Vec2f := ⟨v.x * s, v.y * s⟩

/-- The operator `Vec2f operator/(float s)`: no guard in the source, so there is no value
for `s = 0`. -/
def div (v : Vec2f) (s : ℚ) : Option Vec2f :=
  if s = 0 then none else some ⟨v.x / s, v.y / s⟩

/-- The operator `Vec2f operator*(const Vec2f &b)`. -/
def mul (a b : Vec2f) : Vec2f := ⟨a.x * b.x, a.y * b.y⟩

/-- The operator `Vec2f operator-(const Vec2f &b)`. -/
def sub (a b : Vec2f) : Vec2f := ⟨a.x - b.x, a.y - b.y⟩

/-- The operator `Vec2f operator+(const Vec2f &b)` (and the value stored by `operator+=`). -/
def add (a b : Vec2f) : Vec2f := ⟨a.x + b.x, a.y + b.y⟩

instance : Add Vec2f := ⟨add⟩
instance : Sub Vec2f := ⟨sub⟩
instance : HMul Vec2f ℚ Vec2f := ⟨smul⟩

/-- The radicand `x * x + y * y` of `length()`. -/
def lengthSq (v : Vec2f) : ℚ := v.x * v.x + v.y * v.y

/-- The method `length()`: `std::sqrt (x * x + y * y)`, for a given square-root function. -/
def length (sqrt : ℚ → ℚ) (v : Vec2f) : ℚ := sqrt (v.x * v.x + v.y * v.y)

/-- The method `normalize()`: the zero vector when the length is zero, else the vector
divided by its length. -/
def normalize (sqrt : ℚ → ℚ) (v : Vec2f) : Vec2f :=
  let len := v.length sqrt
  if len = 0 then zero else ⟨v.x / len, v.y / len⟩

/-- The sum of two vectors either of which may have no finite value. -/
def padd : Option Vec2f → Option Vec2f → Option Vec2f
  | some a, some b => some (a + b)
  | _, _ => none

/-- The difference of two vectors either of which may have no finite value. -/
def psub : Option Vec2f → Option Vec2f → Option Vec2f
  | some a, some b => some (a - b)
  | _, _ => none

end Vec2f

/-! ## Config, Mouse (lines 57-77) -/

/-- The struct `Config`. -/
structure Config where
  min_scale : ℚ
  scroll_speed : ℚ
  drag_friction : ℚ
  scale_friction : ℚ
deriving DecidableEq, Repr

/-- The default member initialisers of `Config`, which `Config::load` returns; `min_scale`
is the float nearest to `0.01`. -/
def Config.default : Config :=
  { min_scale := 5368709 / 536870912, scroll_speed := 3 / 2, drag_friction := 6,
    scale_friction := 4 }

/-- The struct `Mouse`. -/
structure Mouse where
  curr : Vec2f
  prev : Vec2f
  drag : Bool
deriving DecidableEq, Repr

/-! ## Camera (lines 79-105) -/

/-- The struct `Camera`.  `position = none` stands for a position without a finite value
(a division by a zero scale has been added to it). -/
structure Camera where
  position : Option Vec2f
  velocity : Vec2f
  scale_pivot : Vec2f
  scale : ℚ
  delta_scale : ℚ
deriving DecidableEq, Repr

namespace Camera

/-- The method `world`: `v / scale`. -/
def world (c : Camera) (v : Vec2f) : Option Vec2f := v.div c.scale

/-- The first block of `Camera::update` (lines 90-98): the zoom about the pivot. -/
def zoom_step (config : Config) (dt : ℚ) (window_size : Vec2f) (c : Camera) : Camera :=
  if |c.delta_scale| > 1 / 2 then
    let p0 := (c.scale_pivot - window_size * (1 / 2 : ℚ)).div c.scale
    let scale := max (c.scale + c.delta_scale * dt) config.min_scale
    let p1 := (c.scale_pivot - window_size * (1 / 2 : ℚ)).div scale
    { c with
      scale := scale
      position := Vec2f.padd c.position (Vec2f.psub p0 p1)
      delta_scale := c.delta_scale - c.delta_scale * dt * config.scale_friction }
  else c

/-- The second block of `Camera::update` (lines 100-103): the pan momentum.  The test
`velocity.length() > VELOCITY_THRESHOLD` is made on the squares. -/
def momentum_step (config : Config) (dt : ℚ) (mouse : Mouse) (c : Camera) : Camera :=
  if mouse.drag = false ∧
      VELOCITY_THRESHOLD * VELOCITY_THRESHOLD < c.velocity.lengthSq then
    { c with
      position := Vec2f.padd c.position (some (c.velocity * dt))
      velocity := c.velocity - c.velocity * dt * config.drag_friction }
  else c

/-- The method `Camera::update`: the zoom block, then the momentum block (the `XImage *`
argument is not used by the body). -/
def update (config : Config) (dt : ℚ) (mouse : Mouse) (window_size : Vec2f)
    (c : Camera) : Camera :=
  momentum_step config dt mouse (zoom_step config dt window_size c)

end Camera

/-! ## FlashLight (lines 107-124) -/

/-- The struct `FlashLight`. -/
structure FlashLight where
  is_enabled : Bool
  shadow : ℚ
  radius : ℚ
  delta_radius : ℚ
deriving DecidableEq, Repr

namespace FlashLight

/-- The first block of `FlashLight::update` (lines 114-117): the radius. -/
def radius_step (dt : ℚ) (f : FlashLight) : FlashLight :=
  if |f.delta_radius| > 1 then
    { f with
      radius := max 0 (f.radius + f.delta_radius * dt)
      delta_radius := f.delta_radius - f.delta_radius * FL_DELTA_RADIUS_DECELERATION * dt }
  else f

/-- The second block of `FlashLight::update` (lines 118-122): the shadow.  Both branches
compute in `double` and store into the `float` member; in the first the value stored can
be the constant `0.8`, which the store narrows (`narrow`); in the second it is a computed
value or the exact `0.0`. -/
def shadow_step (dt : ℚ) (f : FlashLight) : FlashLight :=
  if f.is_enabled = true then
    { f with shadow := narrow (min (f.shadow + 6 * dt) DOUBLE_0_8) }
  else
    { f with shadow := max (f.shadow - 6 * dt) 0 }

/-- The method `FlashLight::update`: the radius block, then the shadow block. -/
def update (dt : ℚ) (f : FlashLight) : FlashLight :=
  shadow_step dt (radius_step dt f)

end FlashLight

/-! ## The event handlers and the frame loop of `main` (lines 447-563) -/

/-- The three pieces of state that `main` keeps across frames. -/
structure State where
  camera : Camera
  flash_light : FlashLight
  mouse : Mouse
deriving DecidableEq, Repr

/-- The state before the first frame (lines 447-451), for a cursor at `pos`. -/
def State.init (pos : Vec2f) : State :=
  { camera :=
      { position := some Vec2f.zero, velocity := Vec2f.zero, scale_pivot := Vec2f.zero,
        scale := 1, delta_scale := 0 }
    flash_light := { is_enabled := false, shadow := 0, radius := 200, delta_radius := 0 }
    mouse := { curr := pos, prev := pos, drag := false } }

/-- The lambda `scroll_up`; `ctrl` is the test `(xev.xkey.state & ControlMask) > 0`. -/
def scroll_up (config : Config) (ctrl : Bool) (s : State) : State :=
  if ctrl = true ∧ s.flash_light.is_enabled = true then
    { s with flash_light :=
        { s.flash_light with
          delta_radius := s.flash_light.delta_radius + INITIAL_FL_DELTA_RADIUS } }
  else
    { s with camera :=
        { s.camera with
          delta_scale := s.camera.delta_scale + config.scroll_speed
          scale_pivot := s.mouse.curr } }

/-- The lambda `scroll_down`. -/
def scroll_down (config : Config) (ctrl : Bool) (s : State) : State :=
  if ctrl = true ∧ s.flash_light.is_enabled = true then
    { s with flash_light :=
        { s.flash_light with
          delta_radius := s.flash_light.delta_radius - INITIAL_FL_DELTA_RADIUS } }
  else
    { s with camera :=
        { s.camera with
          delta_scale := s.camera.delta_scale - config.scroll_speed
          scale_pivot := s.mouse.curr } }

/-- The case `MotionNotify` for the pointer at `(x, y)`; `rate` is the refresh rate read
from `XRRConfigCurrentRate`.  While dragging, `delta` is made of two divisions by
`camera.scale`; with a zero scale neither `delta` nor the velocity computed from it has a
value, and the result is `none`. -/
def motion_notify (rate : ℤ) (x y : ℤ) (s : State) : Option State :=
  let curr : Vec2f := ⟨(x : ℚ), (y : ℚ)⟩
  if s.mouse.drag = true then
    match s.camera.world s.mouse.prev, s.camera.world curr with
    | some wp, some wc =>
      let delta := wp - wc
      some
        { s with
          camera :=
            { s.camera with
              position := Vec2f.padd s.camera.position (some delta)
              velocity := delta * (rate : ℚ) }
          mouse := { s.mouse with curr := curr, prev := curr } }
    | _, _ => none
  else
    some { s with mouse := { s.mouse with curr := curr, prev := curr } }

/-- The case `XK_0` of `KeyPress`: the reset. -/
def key_0 (s : State) : State :=
  { s with camera :=
      { s.camera with
        scale := 1
        delta_scale := 0
        position := some Vec2f.zero
        velocity := Vec2f.zero } }

/-- The case `XK_f` of `KeyPress`: the flashlight toggle. -/
def key_f (s : State) : State :=
  { s with flash_light := { s.flash_light with is_enabled := !s.flash_light.is_enabled } }

/-- The case `Button1` of `ButtonPress`. -/
def button1_press (s : State) : State :=
  { s with
    mouse := { s.mouse with prev := s.mouse.curr, drag := true }
    camera := { s.camera with velocity := Vec2f.zero } }

/-- The case `Button1` of `ButtonRelease`. -/
def button1_release (s : State) : State :=
  { s with mouse := { s.mouse with drag := false } }

/-- The end of the loop body (lines 561-563): `camera.update` then `flash_light.update`. -/
def tick (config : Config) (dt : ℚ) (window_size : Vec2f) (s : State) : State :=
  { s with
    camera := s.camera.update config dt s.mouse window_size
    flash_light := s.flash_light.update dt }

/-- The events of the `switch` in `main` that change the state, and the end-of-frame
update.  `XK_equal` and `Button4` are `scrollUp`, `XK_minus` and `Button5` are
`scrollDown`. -/
inductive Step where
  | motion (x y : ℤ)
  | scrollUp (ctrl : Bool)
  | scrollDown (ctrl : Bool)
  | key0
  | keyF
  | press1
  | release1
  | tick (window_size : Vec2f)
deriving DecidableEq, Repr

/-- One step of the main loop. -/
def step (config : Config) (rate : ℤ) (dt : ℚ) (s : State) : Step → Option State
  | .motion x y => motion_notify rate x y s
  | .scrollUp ctrl => some (scroll_up config ctrl s)
  | .scrollDown ctrl => some (scroll_down config ctrl s)
  | .key0 => some (key_0 s)
  | .keyF => some (key_f s)
  | .press1 => some (button1_press s)
  | .release1 => some (button1_release s)
  | .tick window_size => some (tick config dt window_size s)

/-- The state after `n` frames without events, the window having size `w k` in frame `k`. -/
def tickSeq (config : Config) (dt : ℚ) (w : ℕ → Vec2f) (s : State) : ℕ → State
  | 0 => s
  | n + 1 => tick config dt (w n) (tickSeq config dt w s n)

/-- The world point under the pivot: `position + (scale_pivot - window_size / 2) / scale`. -/
def Camera.pivot_world (window_size : Vec2f) (c : Camera) : Option Vec2f :=
  Vec2f.padd c.position ((c.scale_pivot - window_size * (1 / 2 : ℚ)).div c.scale)

/-- A finite run of the main loop. -/
def run (config : Config) (rate : ℤ) (dt : ℚ) : List Step → State → Option State
  | [], s => some s
  | e :: es, s => (step config rate dt s e).bind (run config rate dt es)

/-! ## Step classes and concrete states used below -/

/-- The scenario of the specification: dragging from `prev = (100, 100)` at scale `2`,
with the camera at the origin. -/
def dragScenario : State :=
  { camera :=
      { position := some ⟨0, 0⟩, velocity := ⟨0, 0⟩, scale_pivot := ⟨0, 0⟩,
        scale := 2, delta_scale := 0 }
    flash_light := { is_enabled := false, shadow := 0, radius := 200, delta_radius := 0 }
    mouse := { curr := ⟨100, 100⟩, prev := ⟨100, 100⟩, drag := true } }

/-- A camera whose scale is zero. -/
def zeroScaleCamera : Camera :=
  { position := some ⟨0, 0⟩, velocity := ⟨0, 0⟩, scale_pivot := ⟨0, 0⟩, scale := 0,
    delta_scale := 0 }

/-- The steps of C3: the flashlight toggle and the end-of-frame update. -/
def Step.isToggleOrTick : Step → Bool
  | .keyF => true
  | .tick _ => true
  | _ => false

/-- The steps of C2: the two scroll events and the end-of-frame update. -/
def Step.isScrollOrTick : Step → Bool
  | .scrollUp _ => true
  | .scrollDown _ => true
  | .tick _ => true
  | _ => false

/-- A camera that zooms (`delta_scale = 1`) while it still pans (`velocity = (128, 0)`). -/
def zoomingPanningCamera : Camera :=
  { position := some ⟨0, 0⟩, velocity := ⟨128, 0⟩, scale_pivot := ⟨400, 300⟩, scale := 1,
    delta_scale := 1 }

/-- A mouse that is not dragging. -/
def idleMouse : Mouse := { curr := ⟨400, 300⟩, prev := ⟨400, 300⟩, drag := false }

/-- A state at rest (`velocity = 0`, no drag) whose camera still zooms (`delta_scale = 1`)
about a pivot 16 pixels to the right of the window centre. -/
def zoomingRestState : State :=
  { camera :=
      { position := some ⟨0, 0⟩, velocity := ⟨0, 0⟩, scale_pivot := ⟨416, 300⟩, scale := 1,
        delta_scale := 1 }
    flash_light := { is_enabled := false, shadow := 0, radius := 200, delta_radius := 0 }
    mouse := { curr := ⟨416, 300⟩, prev := ⟨416, 300⟩, drag := false } }

/-- The default config with a negative zoom friction. -/
def negFrictionConfig : Config :=
  { min_scale := 5368709 / 536870912, scroll_speed := 3 / 2, drag_friction := 6,
    scale_friction := -4 }

/-- The default config with a zoom friction of `16`. -/
def fastFrictionConfig : Config :=
  { min_scale := 5368709 / 536870912, scroll_speed := 3 / 2, drag_friction := 6,
    scale_friction := 16 }

/-! ## Basic facts about the vector operations -/

namespace Vec2f

@[simp] theorem add_x (a b : Vec2f) : (a + b).x = a.x + b.x := rfl
@[simp] theorem add_y (a b : Vec2f) : (a + b).y = a.y + b.y := rfl
@[simp] theorem sub_x (a b : Vec2f) : (a - b).x = a.x - b.x := rfl
@[simp] theorem sub_y (a b : Vec2f) : (a - b).y = a.y - b.y := rfl
@[simp] theorem smul_x (a : Vec2f) (s : ℚ) : (a * s).x = a.x * s := rfl
@[simp] theorem smul_y (a : Vec2f) (s : ℚ) : (a * s).y = a.y * s := rfl
@[simp] theorem zero_x : zero.x = 0 := rfl
@[simp] theorem zero_y : zero.y = 0 := rfl

theorem div_of_ne_zero (v : Vec2f) {s : ℚ} (hs : s ≠ 0) :
    v.div s = some ⟨v.x / s, v.y / s⟩ := by
  simp [div, hs]

theorem div_zero (v : Vec2f) : v.div 0 = none := by
  simp [div]

@[simp] theorem padd_some (a b : Vec2f) : padd (some a) (some b) = some (a + b) := rfl
@[simp] theorem psub_some (a b : Vec2f) : psub (some a) (some b) = some (a - b) := rfl
@[simp] theorem padd_none (b : Option Vec2f) : padd none b = none := rfl

theorem lengthSq_nonneg (v : Vec2f) : 0 ≤ v.lengthSq := by
  unfold lengthSq
  nlinarith [mul_self_nonneg v.x, mul_self_nonneg v.y]

/-- The test `length() > t` of the source and the test on the squares agree, for every
threshold `t ≥ 0` and every square-root function that is exact at `x * x + y * y`. -/
theorem length_gt_iff (sqrt : ℚ → ℚ) (v : Vec2f) (t : ℚ) (ht : 0 ≤ t)
    (h0 : 0 ≤ sqrt v.lengthSq) (hsq : sqrt v.lengthSq * sqrt v.lengthSq = v.lengthSq) :
    t < v.length sqrt ↔ t * t < v.lengthSq := by
  have hlen : v.length sqrt = sqrt v.lengthSq := rfl
  rw [hlen]
  generalize sqrt v.lengthSq = r at h0 hsq
  rw [← hsq]
  constructor
  · intro h
    nlinarith
  · intro h
    by_contra hcon
    push_neg at hcon
    nlinarith

end Vec2f

/-! ## Field-by-field descriptions of the two updates -/

theorem Camera.zoom_step_velocity (config : Config) (dt : ℚ) (window_size : Vec2f)
    (c : Camera) : (c.zoom_step config dt window_size).velocity = c.velocity := by
  unfold Camera.zoom_step
  split_ifs <;> rfl

theorem Camera.zoom_step_scale_pivot (config : Config) (dt : ℚ) (window_size : Vec2f)
    (c : Camera) : (c.zoom_step config dt window_size).scale_pivot = c.scale_pivot := by
  unfold Camera.zoom_step
  split_ifs <;> rfl

theorem Camera.momentum_step_scale (config : Config) (dt : ℚ) (mouse : Mouse) (c : Camera) :
    (c.momentum_step config dt mouse).scale = c.scale := by
  unfold Camera.momentum_step
  split_ifs <;> rfl

theorem Camera.momentum_step_delta_scale (config : Config) (dt : ℚ) (mouse : Mouse)
    (c : Camera) : (c.momentum_step config dt mouse).delta_scale = c.delta_scale := by
  unfold Camera.momentum_step
  split_ifs <;> rfl

theorem Camera.momentum_step_scale_pivot (config : Config) (dt : ℚ) (mouse : Mouse)
    (c : Camera) : (c.momentum_step config dt mouse).scale_pivot = c.scale_pivot := by
  unfold Camera.momentum_step
  split_ifs <;> rfl

theorem Camera.update_scale (config : Config) (dt : ℚ) (mouse : Mouse) (window_size : Vec2f)
    (c : Camera) :
    (c.update config dt mouse window_size).scale =
      if |c.delta_scale| > 1 / 2 then max (c.scale + c.delta_scale * dt) config.min_scale
      else c.scale := by
  rw [Camera.update, Camera.momentum_step_scale]
  unfold Camera.zoom_step
  split_ifs <;> rfl

theorem Camera.update_delta_scale (config : Config) (dt : ℚ) (mouse : Mouse)
    (window_size : Vec2f) (c : Camera) :
    (c.update config dt mouse window_size).delta_scale =
      if |c.delta_scale| > 1 / 2 then
        c.delta_scale - c.delta_scale * dt * config.scale_friction
      else c.delta_scale := by
  rw [Camera.update, Camera.momentum_step_delta_scale]
  unfold Camera.zoom_step
  split_ifs <;> rfl

theorem Camera.update_scale_pivot (config : Config) (dt : ℚ) (mouse : Mouse)
    (window_size : Vec2f) (c : Camera) :
    (c.update config dt mouse window_size).scale_pivot = c.scale_pivot := by
  rw [Camera.update, Camera.momentum_step_scale_pivot, Camera.zoom_step_scale_pivot]

theorem Camera.update_velocity (config : Config) (dt : ℚ) (mouse : Mouse)
    (window_size : Vec2f) (c : Camera) :
    (c.update config dt mouse window_size).velocity =
      if mouse.drag = false ∧ VELOCITY_THRESHOLD * VELOCITY_THRESHOLD < c.velocity.lengthSq
      then c.velocity - c.velocity * dt * config.drag_friction
      else c.velocity := by
  rw [Camera.update]
  unfold Camera.momentum_step
  rw [Camera.zoom_step_velocity]
  split_ifs
  · rfl
  · exact Camera.zoom_step_velocity config dt window_size c

theorem FlashLight.radius_step_is_enabled (dt : ℚ) (f : FlashLight) :
    (f.radius_step dt).is_enabled = f.is_enabled := by
  unfold FlashLight.radius_step
  split_ifs <;> rfl

theorem FlashLight.radius_step_shadow (dt : ℚ) (f : FlashLight) :
    (f.radius_step dt).shadow = f.shadow := by
  unfold FlashLight.radius_step
  split_ifs <;> rfl

theorem FlashLight.update_is_enabled (dt : ℚ) (f : FlashLight) :
    (f.update dt).is_enabled = f.is_enabled := by
  rw [FlashLight.update]
  unfold FlashLight.shadow_step
  split_ifs <;> exact FlashLight.radius_step_is_enabled dt f

theorem FlashLight.update_shadow (dt : ℚ) (f : FlashLight) :
    (f.update dt).shadow =
      if f.is_enabled = true then narrow (min (f.shadow + 6 * dt) DOUBLE_0_8)
      else max (f.shadow - 6 * dt) 0 := by
  rw [FlashLight.update]
  unfold FlashLight.shadow_step
  rw [FlashLight.radius_step_is_enabled, FlashLight.radius_step_shadow]
  split_ifs <;> rfl

theorem FlashLight.update_delta_radius (dt : ℚ) (f : FlashLight) :
    (f.update dt).delta_radius =
      if |f.delta_radius| > 1 then
        f.delta_radius - f.delta_radius * FL_DELTA_RADIUS_DECELERATION * dt
      else f.delta_radius := by
  have h : ∀ g : FlashLight, (g.shadow_step dt).delta_radius = g.delta_radius := by
    intro g
    unfold FlashLight.shadow_step
    split_ifs <;> rfl
  rw [FlashLight.update, h]
  unfold FlashLight.radius_step
  split_ifs <;> rfl

/-- An invariant that every permitted step keeps, with a result, is kept by every run of
permitted steps, which has a result. -/
theorem run_preserves (config : Config) (rate : ℤ) (dt : ℚ) (ok : Step → Prop)
    (P : State → Prop)
    (hstep : ∀ (s : State) (e : Step), ok e → P s →
      ∃ s' : State, step config rate dt s e = some s' ∧ P s') :
    ∀ (steps : List Step) (s : State), (∀ e ∈ steps, ok e) → P s →
      ∃ s' : State, run config rate dt steps s = some s' ∧ P s' := by
  intro steps
  induction steps with
  | nil =>
    intro s _ hP
    exact ⟨s, rfl, hP⟩
  | cons e es ih =>
    intro s hok hP
    obtain ⟨s1, h1, hP1⟩ := hstep s e (hok e (List.mem_cons_self e es)) hP
    obtain ⟨s2, h2, hP2⟩ := ih s1 (fun e' he' => hok e' (List.mem_cons_of_mem e he')) hP1
    exact ⟨s2, by simp [run, h1, h2], hP2⟩

/-! ## C8: the reset -/

/-- C8 (reset determinism): whatever the camera, flashlight and mouse state, after the
reset key `camera.scale = 1`, `camera.delta_scale = 0`, `camera.position = (0, 0)` and
`camera.velocity = (0, 0)`, and the flashlight and the mouse are unchanged (so is the
pivot, the one camera field the reset does not write). -/
theorem key_0_resets (s : State) :
    (key_0 s).camera.scale = 1 ∧ (key_0 s).camera.delta_scale = 0 ∧
      (key_0 s).camera.position = some ⟨0, 0⟩ ∧ (key_0 s).camera.velocity = ⟨0, 0⟩ ∧
      (key_0 s).camera.scale_pivot = s.camera.scale_pivot ∧
      (key_0 s).flash_light = s.flash_light ∧ (key_0 s).mouse = s.mouse :=
  ⟨rfl, rfl, rfl, rfl, rfl, rfl, rfl⟩

/-! ## C7: scroll routing -/

/-- C7 (scroll routing): a scroll event takes exactly one of two routes.  Either the
modifier is held and the flashlight is enabled, and then `delta_radius` moves by `+250`
(up) or `-250` (down) while the camera, the mouse and the other flashlight fields are
unchanged; or not, and then `delta_scale` moves by `+scroll_speed` (up) or `-scroll_speed`
(down), `scale_pivot` becomes `mouse.curr`, and the flashlight, the mouse and the other
camera fields are unchanged.  In both cases at most one of `delta_radius` and
`delta_scale` is written. -/
theorem scroll_routing (config : Config) (ctrl : Bool) (s : State) :
    ((ctrl = true ∧ s.flash_light.is_enabled = true) ∧
        scroll_up config ctrl s =
          { s with flash_light := { s.flash_light with
              delta_radius := s.flash_light.delta_radius + 250 } } ∧
        scroll_down config ctrl s =
          { s with flash_light := { s.flash_light with
              delta_radius := s.flash_light.delta_radius - 250 } } ∧
        (scroll_up config ctrl s).camera = s.camera ∧
        (scroll_down config ctrl s).camera = s.camera
      ∨
      ¬ (ctrl = true ∧ s.flash_light.is_enabled = true) ∧
        scroll_up config ctrl s =
          { s with camera := { s.camera with
              delta_scale := s.camera.delta_scale + config.scroll_speed
              scale_pivot := s.mouse.curr } } ∧
        scroll_down config ctrl s =
          { s with camera := { s.camera with
              delta_scale := s.camera.delta_scale - config.scroll_speed
              scale_pivot := s.mouse.curr } } ∧
        (scroll_up config ctrl s).flash_light = s.flash_light ∧
        (scroll_down config ctrl s).flash_light = s.flash_light) ∧
    ((scroll_up config ctrl s).flash_light.delta_radius = s.flash_light.delta_radius ∨
      (scroll_up config ctrl s).camera.delta_scale = s.camera.delta_scale) ∧
    ((scroll_down config ctrl s).flash_light.delta_radius = s.flash_light.delta_radius ∨
      (scroll_down config ctrl s).camera.delta_scale = s.camera.delta_scale) := by
  by_cases h : ctrl = true ∧ s.flash_light.is_enabled = true
  · simp [scroll_up, scroll_down, h, INITIAL_FL_DELTA_RADIUS]
  · simp [scroll_up, scroll_down, h]

/-! ## C6: the drag-move handler -/

/-- C6 (drag-move): while dragging with a non-zero scale, a motion event at `(x, y)` has a
result; in it `mouse.curr = mouse.prev = (x, y)`, the position has moved by
`delta = mouse.prev / scale - (x, y) / scale` (componentwise, `mouse.prev` being the old
one), the velocity is `delta * rate`, and `scale`, `delta_scale`, `scale_pivot`, the drag
flag and the flashlight are unchanged. -/
theorem motion_notify_drag (rate x y : ℤ) (s : State) (hdrag : s.mouse.drag = true)
    (hscale : s.camera.scale ≠ 0) :
    ∃ s' : State, motion_notify rate x y s = some s' ∧
      s'.mouse.curr = ⟨(x : ℚ), (y : ℚ)⟩ ∧ s'.mouse.prev = ⟨(x : ℚ), (y : ℚ)⟩ ∧
      s'.mouse.drag = true ∧
      s'.camera.position =
        s.camera.position.map (fun p => p +
          ⟨s.mouse.prev.x / s.camera.scale - (x : ℚ) / s.camera.scale,
           s.mouse.prev.y / s.camera.scale - (y : ℚ) / s.camera.scale⟩) ∧
      s'.camera.velocity =
        ⟨(s.mouse.prev.x / s.camera.scale - (x : ℚ) / s.camera.scale) * (rate : ℚ),
         (s.mouse.prev.y / s.camera.scale - (y : ℚ) / s.camera.scale) * (rate : ℚ)⟩ ∧
      s'.camera.scale = s.camera.scale ∧ s'.camera.delta_scale = s.camera.delta_scale ∧
      s'.camera.scale_pivot = s.camera.scale_pivot ∧ s'.flash_light = s.flash_light := by
  have hw : ∀ v : Vec2f, s.camera.world v =
      some ⟨v.x / s.camera.scale, v.y / s.camera.scale⟩ :=
    fun v => Vec2f.div_of_ne_zero v hscale
  have hres : motion_notify rate x y s = some
      { s with
        camera :=
          { s.camera with
            position := Vec2f.padd s.camera.position
              (some ((⟨s.mouse.prev.x / s.camera.scale, s.mouse.prev.y / s.camera.scale⟩ : Vec2f)
                - ⟨(x : ℚ) / s.camera.scale, (y : ℚ) / s.camera.scale⟩))
            velocity := ((⟨s.mouse.prev.x / s.camera.scale, s.mouse.prev.y / s.camera.scale⟩ :
                Vec2f) - ⟨(x : ℚ) / s.camera.scale, (y : ℚ) / s.camera.scale⟩) * (rate : ℚ) }
        mouse := { s.mouse with curr := ⟨(x : ℚ), (y : ℚ)⟩, prev := ⟨(x : ℚ), (y : ℚ)⟩ } } := by
    simp only [motion_notify, hdrag, if_true, hw]
  refine ⟨_, hres, rfl, rfl, hdrag, ?_, rfl, rfl, rfl, rfl, rfl⟩
  cases hp : s.camera.position
  · simp [Vec2f.padd]
  · simp only [Vec2f.padd_some, Option.map_some']
    rfl

/-- The scenario of C6: from `prev = (100, 100)` to `(150, 120)` at scale `2` the position
moves from `(0, 0)` to `(-25, -10)`. -/
theorem motion_notify_drag_witness :
    dragScenario.mouse.drag = true ∧ dragScenario.camera.scale ≠ 0 ∧
      ∃ s' : State, motion_notify 60 150 120 dragScenario = some s' ∧
        s'.camera.position = some ⟨-25, -10⟩ ∧ s'.camera.velocity = ⟨-1500, -600⟩ ∧
        s'.mouse.prev = ⟨150, 120⟩ := by
  have hs : dragScenario.camera.scale ≠ 0 := by norm_num [dragScenario]
  refine ⟨rfl, hs, ?_⟩
  obtain ⟨s', h, _, hprev, _, hpos, hvel, _⟩ := motion_notify_drag 60 150 120 dragScenario rfl hs
  refine ⟨s', h, ?_, ?_, ?_⟩
  · rw [hpos]
    simp only [dragScenario, Option.map_some']
    congr 1
    ext <;> norm_num
  · rw [hvel]
    simp only [dragScenario]
    ext <;> norm_num
  · rw [hprev]
    norm_num

/-! ## C9: division by zero -/

/-- C9, as stated, fails: `world` of a camera with scale `0` is the unguarded division
`v / 0`, which has no value; it is not the zero vector, neither for `v = (1, 1)` nor for
`v = (0, 0)`. -/
theorem world_zero_scale_counterexample :
    zeroScaleCamera.world ⟨1, 1⟩ = none ∧ zeroScaleCamera.world ⟨1, 1⟩ ≠ some Vec2f.zero ∧
      zeroScaleCamera.world ⟨0, 0⟩ ≠ some Vec2f.zero := by
  refine ⟨?_, ?_, ?_⟩ <;> simp [Camera.world, Vec2f.div, zeroScaleCamera]

/-- C9 (amended): `normalize` of a vector whose length is zero is the zero vector, for
every square-root function; `world` is guarded by nothing: with a non-zero scale it is the
componentwise quotient `(v.x / scale, v.y / scale)`, and with a zero scale it is a
division by zero and has no value. -/
theorem zero_divisor_behaviour :
    (∀ (sqrt : ℚ → ℚ) (v : Vec2f), v.length sqrt = 0 → v.normalize sqrt = ⟨0, 0⟩) ∧
      (∀ (sqrt : ℚ → ℚ) (v : Vec2f), v.length sqrt ≠ 0 →
        v.normalize sqrt = ⟨v.x / v.length sqrt, v.y / v.length sqrt⟩) ∧
      (∀ (c : Camera) (v : Vec2f), c.scale ≠ 0 →
        c.world v = some ⟨v.x / c.scale, v.y / c.scale⟩) ∧
      (∀ (c : Camera) (v : Vec2f), c.scale = 0 → c.world v = none) := by
  refine ⟨?_, ?_, ?_, ?_⟩
  · intro sqrt v h
    simp [Vec2f.normalize, h, Vec2f.zero]
  · intro sqrt v h
    simp [Vec2f.normalize, h]
  · intro c v h
    exact Vec2f.div_of_ne_zero v h
  · intro c v h
    simp [Camera.world, Vec2f.div, h]

/-- The amended C9 at concrete inputs: `normalize` of `(0, 0)` with the rational square
root, `world` at scale `2`, and `world` at scale `0`. -/
theorem zero_divisor_behaviour_witness :
    Vec2f.normalize Rat.sqrt ⟨0, 0⟩ = ⟨0, 0⟩ ∧
      dragScenario.camera.world ⟨150, 120⟩ = some ⟨75, 60⟩ ∧
      zeroScaleCamera.world ⟨150, 120⟩ = none := by
  refine ⟨?_, ?_, ?_⟩
  · apply zero_divisor_behaviour.1
    simp [Vec2f.length, Rat.sqrt]
  · rw [zero_divisor_behaviour.2.2.1 dragScenario.camera ⟨150, 120⟩
      (by norm_num [dragScenario])]
    simp only [dragScenario]
    congr 1
    ext <;> norm_num
  · exact zero_divisor_behaviour.2.2.2 zeroScaleCamera ⟨150, 120⟩ rfl

/-! ## C3: the shadow stays between `0` and the float `0.8` -/

/-- The capped shadow value is the float `FLOAT_0_8`, or a computed value below the double
`0.8`; never more than `FLOAT_0_8`. -/
theorem narrow_min_le (x : ℚ) : narrow (min x DOUBLE_0_8) ≤ FLOAT_0_8 := by
  unfold narrow
  split_ifs with h
  · exact le_refl _
  · have h1 : min x DOUBLE_0_8 ≤ DOUBLE_0_8 := min_le_right _ _
    have h2 : DOUBLE_0_8 ≤ FLOAT_0_8 := by norm_num [DOUBLE_0_8, FLOAT_0_8]
    exact le_trans h1 h2

/-- The capped shadow value is not below a previous shadow `s ≤ FLOAT_0_8` that the
increment started from. -/
theorem le_narrow_min (s x : ℚ) (hs : s ≤ FLOAT_0_8) (hx : s ≤ x) :
    s ≤ narrow (min x DOUBLE_0_8) := by
  unfold narrow
  split_ifs with h
  · exact hs
  · rcases le_total x DOUBLE_0_8 with hle | hle
    · rw [min_eq_left hle]
      exact hx
    · exact absurd (min_eq_right hle) h

/-- C3, as stated, fails: from the initial state (shadow `0`), with `dt = 1 / 4 ≥ 0`, one
toggle and one tick give `shadow = min (0 + 6 * 0.25, 0.8)` stored in a `float`, that is
`13421773 / 16777216`, which is above `0.8 = 4 / 5`. -/
theorem shadow_bounds_counterexample :
    (0 : ℚ) ≤ 1 / 4 ∧ (State.init ⟨0, 0⟩).flash_light.shadow = 0 ∧
      ∃ s' : State,
        run Config.default 4 (1 / 4) [Step.keyF, Step.tick ⟨800, 600⟩] (State.init ⟨0, 0⟩)
          = some s' ∧
        s'.flash_light.shadow = 13421773 / 16777216 ∧ ¬ s'.flash_light.shadow ≤ 4 / 5 := by
  have h : (tick Config.default (1 / 4) ⟨800, 600⟩
      (key_f (State.init ⟨0, 0⟩))).flash_light.shadow = 13421773 / 16777216 := by
    show ((key_f (State.init ⟨0, 0⟩)).flash_light.update (1 / 4)).shadow = _
    rw [FlashLight.update_shadow]
    norm_num [key_f, State.init, narrow, DOUBLE_0_8, FLOAT_0_8]
  refine ⟨by norm_num, rfl, _, rfl, h, ?_⟩
  rw [h]
  norm_num

/-- C3 (amended): for `dt ≥ 0`, from a shadow in `[0, F]`, where `F = 13421773 / 16777216`
is the float that the constant `0.8` is stored as (so from every shadow in `[0, 0.8]`, and
from the initial `0`), every run of toggles and ticks has a result whose shadow is in
`[0, F]` (every prefix of a run is a run, so this holds
after every tick); and the tick that follows moves the shadow up, to at most `F`, when the
flashlight is enabled, and down, to at least `0`, when it is not. -/
theorem shadow_bounds (config : Config) (rate : ℤ) (dt : ℚ) (hdt : 0 ≤ dt) (s : State)
    (h0 : 0 ≤ s.flash_light.shadow) (h1 : s.flash_light.shadow ≤ FLOAT_0_8)
    (steps : List Step) (hsteps : ∀ e ∈ steps, e.isToggleOrTick = true) :
    ∃ s' : State, run config rate dt steps s = some s' ∧
      (0 ≤ s'.flash_light.shadow ∧ s'.flash_light.shadow ≤ FLOAT_0_8) ∧
      (s'.flash_light.is_enabled = true →
        s'.flash_light.shadow ≤ (s'.flash_light.update dt).shadow ∧
        (s'.flash_light.update dt).shadow ≤ FLOAT_0_8) ∧
      (s'.flash_light.is_enabled = false →
        (s'.flash_light.update dt).shadow ≤ s'.flash_light.shadow ∧
        0 ≤ (s'.flash_light.update dt).shadow) := by
  have hupd : ∀ f : FlashLight, 0 ≤ f.shadow ∧ f.shadow ≤ FLOAT_0_8 →
      0 ≤ (f.update dt).shadow ∧ (f.update dt).shadow ≤ FLOAT_0_8 := by
    intro f hf
    rw [FlashLight.update_shadow]
    split_ifs
    · exact ⟨le_trans hf.1 (le_narrow_min _ _ hf.2 (by linarith)), narrow_min_le _⟩
    · exact ⟨le_max_right _ _,
        max_le (by linarith [hf.2]) (by norm_num [FLOAT_0_8])⟩
  obtain ⟨s', hrun, hs'⟩ := run_preserves config rate dt (fun e => e.isToggleOrTick = true)
    (fun t => 0 ≤ t.flash_light.shadow ∧ t.flash_light.shadow ≤ FLOAT_0_8)
    (by
      intro t e he ht
      cases e <;> simp [Step.isToggleOrTick] at he
      · exact ⟨_, rfl, ht⟩
      · exact ⟨_, rfl, hupd t.flash_light ht⟩)
    steps s hsteps ⟨h0, h1⟩
  refine ⟨s', hrun, hs', ?_, ?_⟩
  · intro hen
    rw [FlashLight.update_shadow, if_pos hen]
    exact ⟨le_narrow_min _ _ hs'.2 (by linarith), narrow_min_le _⟩
  · intro hen
    rw [FlashLight.update_shadow, if_neg (by simp [hen])]
    exact ⟨max_le (by linarith) hs'.1, le_max_right _ _⟩

/-- The amended C3 at a concrete run from the initial state with `dt = 1 / 8`: toggle, two
ticks (the shadow reaches `0.75`, then the cap `F`), toggle, one tick (down by `0.75`). -/
theorem shadow_bounds_witness :
    (0 : ℚ) ≤ 1 / 8 ∧ (State.init ⟨0, 0⟩).flash_light.shadow = 0 ∧
    ∃ s' : State,
      run Config.default 8 (1 / 8)
        [Step.keyF, Step.tick ⟨800, 600⟩, Step.tick ⟨800, 600⟩, Step.keyF,
          Step.tick ⟨800, 600⟩] (State.init ⟨0, 0⟩) = some s' ∧
      (0 ≤ s'.flash_light.shadow ∧ s'.flash_light.shadow ≤ FLOAT_0_8) ∧
      (s'.flash_light.is_enabled = true →
        s'.flash_light.shadow ≤ (s'.flash_light.update (1 / 8)).shadow ∧
        (s'.flash_light.update (1 / 8)).shadow ≤ FLOAT_0_8) ∧
      (s'.flash_light.is_enabled = false →
        (s'.flash_light.update (1 / 8)).shadow ≤ s'.flash_light.shadow ∧
        0 ≤ (s'.flash_light.update (1 / 8)).shadow) :=
  ⟨by norm_num, rfl,
    shadow_bounds Config.default 8 (1 / 8) (by norm_num) (State.init ⟨0, 0⟩)
      (by norm_num [State.init]) (by norm_num [State.init, FLOAT_0_8]) _ (by decide)⟩

/-! ## C2: the scale never drops below `min_scale` -/

/-- C2 (scale floor): from a camera with `scale ≥ min_scale`, every run of scroll-up
events, scroll-down events and ticks has a result, and in it `scale ≥ min_scale` (every
prefix of a run is a run, so this holds after every update); this for every config, every
`dt`, every refresh rate and every window size. -/
theorem scale_floor (config : Config) (rate : ℤ) (dt : ℚ) (s : State)
    (h0 : config.min_scale ≤ s.camera.scale)
    (steps : List Step) (hsteps : ∀ e ∈ steps, e.isScrollOrTick = true) :
    ∃ s' : State, run config rate dt steps s = some s' ∧
      config.min_scale ≤ s'.camera.scale := by
  refine run_preserves config rate dt (fun e => e.isScrollOrTick = true)
    (fun t => config.min_scale ≤ t.camera.scale) ?_ steps s hsteps h0
  intro t e he ht
  cases e <;> simp [Step.isScrollOrTick] at he
  · refine ⟨_, rfl, ?_⟩
    unfold scroll_up
    split_ifs <;> exact ht
  · refine ⟨_, rfl, ?_⟩
    unfold scroll_down
    split_ifs <;> exact ht
  · refine ⟨_, rfl, ?_⟩
    show config.min_scale ≤ (t.camera.update config dt t.mouse _).scale
    rw [Camera.update_scale]
    split_ifs
    · exact le_max_right _ _
    · exact ht

/-- C2 at a concrete run from the initial state with the default config and `dt = 1`:
three scroll-downs (`delta_scale = -4.5`) and a tick, which would take the scale to `-3.5`
and is floored at `min_scale`, the float `0.01`. -/
theorem scale_floor_witness :
    ∃ s' : State,
      run Config.default 1 1
        [Step.scrollDown false, Step.scrollDown false, Step.scrollDown false,
          Step.tick ⟨800, 600⟩] (State.init ⟨400, 300⟩) = some s' ∧
      Config.default.min_scale ≤ s'.camera.scale :=
  scale_floor Config.default 1 1 (State.init ⟨400, 300⟩)
    (by norm_num [State.init, Config.default]) _ (by decide)

/-! ## C1: the zoom keeps the world point under the pivot -/

/-- C1, as stated, fails: with `scale = 1 > 0`, `min_scale > 0` (the float `0.01`) and
`|delta_scale| = 1 > 0.5`, but a velocity of length `128 > 15` and no drag, one update
with `dt = 1` moves the world point under the pivot from `(0, 0)` to `(128, 0)`. -/
theorem pivot_invariance_counterexample :
    0 < zoomingPanningCamera.scale ∧ 0 < Config.default.min_scale ∧
      |zoomingPanningCamera.delta_scale| > 1 / 2 ∧
      zoomingPanningCamera.pivot_world ⟨800, 600⟩ = some ⟨0, 0⟩ ∧
      (zoomingPanningCamera.update Config.default 1 idleMouse ⟨800, 600⟩).pivot_world
        ⟨800, 600⟩ = some ⟨128, 0⟩ ∧
      (zoomingPanningCamera.update Config.default 1 idleMouse ⟨800, 600⟩).pivot_world
        ⟨800, 600⟩ ≠ zoomingPanningCamera.pivot_world ⟨800, 600⟩ := by
  have h1 : zoomingPanningCamera.pivot_world ⟨800, 600⟩ = some ⟨0, 0⟩ := by
    norm_num [Camera.pivot_world, zoomingPanningCamera, Vec2f.div, Vec2f.padd]
    ext <;> norm_num
  have h2 : (zoomingPanningCamera.update Config.default 1 idleMouse ⟨800, 600⟩).pivot_world
      ⟨800, 600⟩ = some ⟨128, 0⟩ := by
    norm_num [Camera.update, Camera.zoom_step, Camera.momentum_step, Camera.pivot_world,
      zoomingPanningCamera, idleMouse, Config.default, Vec2f.div, Vec2f.padd, Vec2f.psub,
      Vec2f.lengthSq, VELOCITY_THRESHOLD, abs_of_pos]
    ext <;> norm_num
  refine ⟨by norm_num [zoomingPanningCamera], by norm_num [Config.default],
    by norm_num [zoomingPanningCamera], h1, h2, ?_⟩
  rw [h1, h2]
  intro h
  have := congrArg (fun o : Option Vec2f => o.map Vec2f.x) h
  norm_num at this

/-- C1 (amended): for a camera with a finite position, `scale > 0`, `min_scale > 0` and
`|delta_scale| > 0.5`, the world point under the pivot is defined before and after one
`Camera.update`, and the update changes it by the pan momentum only: it is unchanged when
the mouse drags or `velocity.length() ≤ 15`, and moves by `velocity * dt` otherwise.  The
zoom block alone leaves it unchanged. -/
theorem pivot_invariance (config : Config) (dt : ℚ) (mouse : Mouse) (window_size : Vec2f)
    (c : Camera) (p : Vec2f) (hpos : c.position = some p) (hscale : 0 < c.scale)
    (hmin : 0 < config.min_scale) (hds : |c.delta_scale| > 1 / 2) :
    ∃ w : Vec2f, c.pivot_world window_size = some w ∧
      (c.zoom_step config dt window_size).pivot_world window_size = some w ∧
      (c.update config dt mouse window_size).pivot_world window_size =
        some (if mouse.drag = false ∧
            VELOCITY_THRESHOLD * VELOCITY_THRESHOLD < c.velocity.lengthSq
          then w + c.velocity * dt else w) := by
  have hs0 : c.scale ≠ 0 := ne_of_gt hscale
  have hs1 : max (c.scale + c.delta_scale * dt) config.min_scale ≠ 0 :=
    ne_of_gt (lt_of_lt_of_le hmin (le_max_right _ _))
  have hz : c.zoom_step config dt window_size =
      { c with
        scale := max (c.scale + c.delta_scale * dt) config.min_scale
        position := Vec2f.padd c.position (Vec2f.psub
          ((c.scale_pivot - window_size * (1 / 2 : ℚ)).div c.scale)
          ((c.scale_pivot - window_size * (1 / 2 : ℚ)).div
            (max (c.scale + c.delta_scale * dt) config.min_scale)))
        delta_scale := c.delta_scale - c.delta_scale * dt * config.scale_friction } := by
    rw [Camera.zoom_step, if_pos hds]
  have hzw : (c.zoom_step config dt window_size).pivot_world window_size =
      some (p + ⟨(c.scale_pivot - window_size * (1 / 2 : ℚ)).x / c.scale,
        (c.scale_pivot - window_size * (1 / 2 : ℚ)).y / c.scale⟩) := by
    rw [hz]
    simp only [Camera.pivot_world, hpos, Vec2f.div_of_ne_zero _ hs0,
      Vec2f.div_of_ne_zero _ hs1, Vec2f.psub_some, Vec2f.padd_some]
    congr 1
    ext <;> simp <;> ring
  refine ⟨p + ⟨(c.scale_pivot - window_size * (1 / 2 : ℚ)).x / c.scale,
    (c.scale_pivot - window_size * (1 / 2 : ℚ)).y / c.scale⟩, ?_, hzw, ?_⟩
  · simp only [Camera.pivot_world, hpos, Vec2f.div_of_ne_zero _ hs0, Vec2f.padd_some]
  · rw [Camera.update]
    unfold Camera.momentum_step
    rw [Camera.zoom_step_velocity]
    split_ifs with hm
    · have hzw' := hzw
      rw [hz] at hzw' ⊢
      simp only [Camera.pivot_world, hpos, Vec2f.div_of_ne_zero _ hs0,
        Vec2f.div_of_ne_zero _ hs1, Vec2f.psub_some, Vec2f.padd_some] at hzw' ⊢
      congr 1
      ext <;> simp <;> ring
    · exact hzw

/-- The amended C1 at the camera of the counterexample: the zoom block keeps the world
point `(0, 0)` under the pivot, the whole update adds `velocity * dt = (128, 0)`. -/
theorem pivot_invariance_witness :
    zoomingPanningCamera.position = some ⟨0, 0⟩ ∧ 0 < zoomingPanningCamera.scale ∧
      0 < Config.default.min_scale ∧ |zoomingPanningCamera.delta_scale| > 1 / 2 ∧
      ∃ w : Vec2f, zoomingPanningCamera.pivot_world ⟨800, 600⟩ = some w ∧
        (zoomingPanningCamera.zoom_step Config.default 1 ⟨800, 600⟩).pivot_world ⟨800, 600⟩
          = some w ∧
        (zoomingPanningCamera.update Config.default 1 idleMouse ⟨800, 600⟩).pivot_world
          ⟨800, 600⟩ =
          some (if idleMouse.drag = false ∧
              VELOCITY_THRESHOLD * VELOCITY_THRESHOLD < zoomingPanningCamera.velocity.lengthSq
            then w + zoomingPanningCamera.velocity * (1 : ℚ) else w) :=
  ⟨rfl, by norm_num [zoomingPanningCamera], by norm_num [Config.default],
    by norm_num [zoomingPanningCamera],
    pivot_invariance Config.default 1 idleMouse ⟨800, 600⟩ zoomingPanningCamera ⟨0, 0⟩ rfl
      (by norm_num [zoomingPanningCamera]) (by norm_num [Config.default])
      (by norm_num [zoomingPanningCamera])⟩

/-! ## C4: the momentum cutoff -/

theorem tickSeq_mouse (config : Config) (dt : ℚ) (w : ℕ → Vec2f) (s : State) (n : ℕ) :
    (tickSeq config dt w s n).mouse = s.mouse := by
  induction n with
  | zero => rfl
  | succ n ih => exact ih

theorem tickSeq_camera_succ (config : Config) (dt : ℚ) (w : ℕ → Vec2f) (s : State) (n : ℕ) :
    (tickSeq config dt w s (n + 1)).camera =
      (tickSeq config dt w s n).camera.update config dt s.mouse (w n) := by
  show (tickSeq config dt w s n).camera.update config dt (tickSeq config dt w s n).mouse (w n)
    = _
  rw [tickSeq_mouse]

theorem tickSeq_flash_light_succ (config : Config) (dt : ℚ) (w : ℕ → Vec2f) (s : State)
    (n : ℕ) :
    (tickSeq config dt w s (n + 1)).flash_light =
      (tickSeq config dt w s n).flash_light.update dt :=
  rfl

/-- C4, as stated, fails: with no drag and a velocity of length `0 ≤ 15`, one update with
`dt = 1` and a window of `800 x 600` still moves the position, from `(0, 0)` to `(8, 0)`,
because the zoom block adds `p0 - p1 = (16, 0) / 1 - (16, 0) / 2`. -/
theorem momentum_cutoff_counterexample :
    zoomingRestState.mouse.drag = false ∧
      zoomingRestState.camera.velocity.lengthSq ≤ VELOCITY_THRESHOLD * VELOCITY_THRESHOLD ∧
      zoomingRestState.camera.position = some ⟨0, 0⟩ ∧
      (zoomingRestState.camera.update Config.default 1 zoomingRestState.mouse
        ⟨800, 600⟩).position = some ⟨8, 0⟩ ∧
      (zoomingRestState.camera.update Config.default 1 zoomingRestState.mouse
        ⟨800, 600⟩).position ≠ zoomingRestState.camera.position := by
  have h : (zoomingRestState.camera.update Config.default 1 zoomingRestState.mouse
      ⟨800, 600⟩).position = some ⟨8, 0⟩ := by
    norm_num [Camera.update, Camera.zoom_step, Camera.momentum_step, zoomingRestState,
      Config.default, Vec2f.div, Vec2f.padd, Vec2f.psub, Vec2f.lengthSq, VELOCITY_THRESHOLD,
      abs_of_pos]
    ext <;> norm_num
  refine ⟨rfl, by norm_num [zoomingRestState, Vec2f.lengthSq, VELOCITY_THRESHOLD], rfl, h, ?_⟩
  rw [h]
  intro h'
  have := congrArg (fun o : Option Vec2f => o.map Vec2f.x) h'
  norm_num [zoomingRestState] at this

/-- C4 (amended): if `velocity.length() ≤ 15` (with the mouse dragging or not), then on
this tick and on every later tick without events the momentum block does not run: the
velocity is unchanged and the update is the zoom block alone; and if moreover
`|delta_scale| ≤ 0.5`, the whole camera, the position included, is unchanged on this
tick and on every later one. -/
theorem momentum_cutoff (config : Config) (dt : ℚ) (w : ℕ → Vec2f) (s : State)
    (hv : s.camera.velocity.lengthSq ≤ VELOCITY_THRESHOLD * VELOCITY_THRESHOLD) (n : ℕ) :
    (tickSeq config dt w s n).camera.velocity = s.camera.velocity ∧
      (tickSeq config dt w s (n + 1)).camera =
        (tickSeq config dt w s n).camera.zoom_step config dt (w n) ∧
      (|s.camera.delta_scale| ≤ 1 / 2 →
        (tickSeq config dt w s n).camera = s.camera ∧
        (tickSeq config dt w s (n + 1)).camera.position = s.camera.position) := by
  have hstep : ∀ (c : Camera) (ws : Vec2f), c.velocity = s.camera.velocity →
      c.update config dt s.mouse ws = c.zoom_step config dt ws := by
    intro c ws hc
    rw [Camera.update, Camera.momentum_step, Camera.zoom_step_velocity, hc, if_neg]
    intro hcon
    exact absurd hcon.2 (not_lt.mpr hv)
  have hvel : ∀ k, (tickSeq config dt w s k).camera.velocity = s.camera.velocity := by
    intro k
    induction k with
    | zero => rfl
    | succ k ih =>
      rw [tickSeq_camera_succ, hstep _ _ ih, Camera.zoom_step_velocity, ih]
  have hnext : (tickSeq config dt w s (n + 1)).camera =
      (tickSeq config dt w s n).camera.zoom_step config dt (w n) := by
    rw [tickSeq_camera_succ, hstep _ _ (hvel n)]
  refine ⟨hvel n, hnext, ?_⟩
  intro hds
  have hfix : ∀ k, (tickSeq config dt w s k).camera = s.camera := by
    intro k
    induction k with
    | zero => rfl
    | succ k ih =>
      rw [tickSeq_camera_succ, hstep _ _ (hvel k), ih, Camera.zoom_step,
        if_neg (not_lt.mpr hds)]
  exact ⟨hfix n, by rw [hfix (n + 1)]⟩

/-- The amended C4 at the state of the counterexample, three ticks on: the velocity is
still `(0, 0)` and the fourth update is the zoom block alone. -/
theorem momentum_cutoff_witness :
    zoomingRestState.mouse.drag = false ∧
      zoomingRestState.camera.velocity.lengthSq ≤ VELOCITY_THRESHOLD * VELOCITY_THRESHOLD ∧
      (tickSeq Config.default 1 (fun _ => ⟨800, 600⟩) zoomingRestState 3).camera.velocity
        = ⟨0, 0⟩ ∧
      (tickSeq Config.default 1 (fun _ => ⟨800, 600⟩) zoomingRestState 4).camera =
        (tickSeq Config.default 1 (fun _ => ⟨800, 600⟩) zoomingRestState 3).camera.zoom_step
          Config.default 1 ⟨800, 600⟩ :=
  have h := momentum_cutoff Config.default 1 (fun _ => ⟨800, 600⟩) zoomingRestState
    (by norm_num [zoomingRestState, Vec2f.lengthSq, VELOCITY_THRESHOLD]) 3
  ⟨rfl, by norm_num [zoomingRestState, Vec2f.lengthSq, VELOCITY_THRESHOLD], h.1, h.2.1⟩

/-! ## C10: one decay step under a small time step -/

/-- One explicit-Euler decay step `d - d * a` with `0 ≤ a ≤ 1` neither grows `d` nor flips
its sign. -/
theorem decay_step_bounds (d a : ℚ) (h0 : 0 ≤ a) (h1 : a ≤ 1) :
    |d - d * a| ≤ |d| ∧ 0 ≤ (d - d * a) * d := by
  have e : d - d * a = d * (1 - a) := by ring
  have hpos : 0 ≤ 1 - a := by linarith
  constructor
  · rw [e, abs_mul, abs_of_nonneg hpos]
    nlinarith [abs_nonneg d]
  · rw [e]
    nlinarith [mul_self_nonneg d]

theorem tick_delta_scale (config : Config) (dt : ℚ) (ws : Vec2f) (s : State) :
    (tick config dt ws s).camera.delta_scale =
      if |s.camera.delta_scale| > 1 / 2 then
        s.camera.delta_scale - s.camera.delta_scale * (dt * config.scale_friction)
      else s.camera.delta_scale := by
  show (s.camera.update config dt s.mouse ws).delta_scale = _
  rw [Camera.update_delta_scale, mul_assoc]

theorem tick_delta_radius (config : Config) (dt : ℚ) (ws : Vec2f) (s : State) :
    (tick config dt ws s).flash_light.delta_radius =
      if |s.flash_light.delta_radius| > 1 then
        s.flash_light.delta_radius -
          s.flash_light.delta_radius * (dt * FL_DELTA_RADIUS_DECELERATION)
      else s.flash_light.delta_radius := by
  show (s.flash_light.update dt).delta_radius = _
  rw [FlashLight.update_delta_radius, mul_assoc, mul_comm FL_DELTA_RADIUS_DECELERATION dt]

theorem tick_velocity (config : Config) (dt : ℚ) (ws : Vec2f) (s : State) :
    (tick config dt ws s).camera.velocity =
      if s.mouse.drag = false ∧
          VELOCITY_THRESHOLD * VELOCITY_THRESHOLD < s.camera.velocity.lengthSq then
        ⟨s.camera.velocity.x - s.camera.velocity.x * (dt * config.drag_friction),
          s.camera.velocity.y - s.camera.velocity.y * (dt * config.drag_friction)⟩
      else s.camera.velocity := by
  show (s.camera.update config dt s.mouse ws).velocity = _
  rw [Camera.update_velocity]
  split_ifs
  · ext <;> simp [mul_assoc]
  · rfl

/-- C10, as stated, fails twice at `dt = 1 / 16` and `delta_scale = 1`, the hypotheses
`dt ≥ 0`, `dt * scale_friction ≤ 1`, `dt * drag_friction ≤ 1`, `dt * 10 ≤ 1` holding each
time.  With `scale_friction = -4` one tick grows `delta_scale` to `1.25`.  With
`scale_friction = 16`, so that `dt * scale_friction = 1`, one tick takes `delta_scale` to
exactly `0`, which is not above `0.5 * (1 - dt * scale_friction) = 0`. -/
theorem decay_small_step_counterexample :
    ((0 : ℚ) ≤ 1 / 16 ∧ (1 / 16 : ℚ) * negFrictionConfig.scale_friction ≤ 1 ∧
        (1 / 16 : ℚ) * negFrictionConfig.drag_friction ≤ 1 ∧ (1 / 16 : ℚ) * 10 ≤ 1 ∧
        (tick negFrictionConfig (1 / 16) ⟨800, 600⟩ zoomingRestState).camera.delta_scale
          = 5 / 4 ∧
        ¬ |(tick negFrictionConfig (1 / 16) ⟨800, 600⟩ zoomingRestState).camera.delta_scale|
          ≤ |zoomingRestState.camera.delta_scale|) ∧
      ((1 / 16 : ℚ) * fastFrictionConfig.scale_friction ≤ 1 ∧
        (1 / 16 : ℚ) * fastFrictionConfig.drag_friction ≤ 1 ∧
        |zoomingRestState.camera.delta_scale| > 1 / 2 ∧
        (tickSeq fastFrictionConfig (1 / 16) (fun _ => ⟨800, 600⟩)
          zoomingRestState 1).camera.delta_scale = 0 ∧
        ¬ |(tickSeq fastFrictionConfig (1 / 16) (fun _ => ⟨800, 600⟩)
            zoomingRestState 1).camera.delta_scale|
          > 1 / 2 * (1 - 1 / 16 * fastFrictionConfig.scale_friction)) := by
  have h1 : (tick negFrictionConfig (1 / 16) ⟨800, 600⟩ zoomingRestState).camera.delta_scale
      = 5 / 4 := by
    rw [tick_delta_scale]
    norm_num [zoomingRestState, negFrictionConfig]
  have h2 : (tickSeq fastFrictionConfig (1 / 16) (fun _ => ⟨800, 600⟩)
      zoomingRestState 1).camera.delta_scale = 0 := by
    show (tick fastFrictionConfig (1 / 16) ⟨800, 600⟩ zoomingRestState).camera.delta_scale = 0
    rw [tick_delta_scale]
    norm_num [zoomingRestState, fastFrictionConfig]
  refine ⟨⟨by norm_num, by norm_num [negFrictionConfig], by norm_num [negFrictionConfig],
    by norm_num, h1, ?_⟩, by norm_num [fastFrictionConfig], by norm_num [fastFrictionConfig],
    by norm_num [zoomingRestState], h2, ?_⟩
  · rw [h1]
    norm_num [zoomingRestState, abs_of_pos]
  · rw [h2]
    norm_num [fastFrictionConfig]

/-- C10 (amended): for `dt ≥ 0` with `0 ≤ dt * scale_friction ≤ 1`,
`0 ≤ dt * drag_friction ≤ 1` and `dt * 10 ≤ 1`, one tick (`Camera.update` then
`FlashLight.update`) gives new values `d'` of `delta_scale`, `delta_radius` and each
component of `velocity` with `|d'| ≤ |d|` and `d' * d ≥ 0`; and if moreover
`dt * scale_friction < 1`, a `delta_scale` that starts with `|delta_scale| > 0.5`
satisfies `|delta_scale| > 0.5 * (1 - dt * scale_friction) > 0` after any number of ticks. -/
theorem decay_small_step (config : Config) (dt : ℚ) (ws : Vec2f) (w : ℕ → Vec2f) (s : State)
    (hdt : 0 ≤ dt)
    (hs0 : 0 ≤ dt * config.scale_friction) (hs1 : dt * config.scale_friction ≤ 1)
    (hd0 : 0 ≤ dt * config.drag_friction) (hd1 : dt * config.drag_friction ≤ 1)
    (hr1 : dt * FL_DELTA_RADIUS_DECELERATION ≤ 1) :
    (|(tick config dt ws s).camera.delta_scale| ≤ |s.camera.delta_scale| ∧
      0 ≤ (tick config dt ws s).camera.delta_scale * s.camera.delta_scale) ∧
    (|(tick config dt ws s).flash_light.delta_radius| ≤ |s.flash_light.delta_radius| ∧
      0 ≤ (tick config dt ws s).flash_light.delta_radius * s.flash_light.delta_radius) ∧
    (|(tick config dt ws s).camera.velocity.x| ≤ |s.camera.velocity.x| ∧
      0 ≤ (tick config dt ws s).camera.velocity.x * s.camera.velocity.x) ∧
    (|(tick config dt ws s).camera.velocity.y| ≤ |s.camera.velocity.y| ∧
      0 ≤ (tick config dt ws s).camera.velocity.y * s.camera.velocity.y) ∧
    (dt * config.scale_friction < 1 → |s.camera.delta_scale| > 1 / 2 →
      ∀ n : ℕ, |(tickSeq config dt w s n).camera.delta_scale| >
          1 / 2 * (1 - dt * config.scale_friction) ∧
        1 / 2 * (1 - dt * config.scale_friction) > 0) := by
  have hr0 : 0 ≤ dt * FL_DELTA_RADIUS_DECELERATION :=
    mul_nonneg hdt (by norm_num [FL_DELTA_RADIUS_DECELERATION])
  have hsame : ∀ d : ℚ, |d| ≤ |d| ∧ 0 ≤ d * d := fun d => ⟨le_refl _, mul_self_nonneg d⟩
  refine ⟨?_, ?_, ?_, ?_, ?_⟩
  · rw [tick_delta_scale]
    split_ifs
    · exact decay_step_bounds _ _ hs0 hs1
    · exact hsame _
  · rw [tick_delta_radius]
    split_ifs
    · exact decay_step_bounds _ _ hr0 hr1
    · exact hsame _
  · rw [tick_velocity]
    split_ifs
    · exact decay_step_bounds _ _ hd0 hd1
    · exact hsame _
  · rw [tick_velocity]
    split_ifs
    · exact decay_step_bounds _ _ hd0 hd1
    · exact hsame _
  · intro hlt hstart n
    have hpos : 0 < 1 - dt * config.scale_friction := by linarith
    refine ⟨?_, by linarith⟩
    induction n with
    | zero =>
      show |s.camera.delta_scale| > _
      nlinarith
    | succ n ih =>
      show |(tick config dt (w n) (tickSeq config dt w s n)).camera.delta_scale| > _
      rw [tick_delta_scale]
      split_ifs with hbig
      · have e : (tickSeq config dt w s n).camera.delta_scale -
            (tickSeq config dt w s n).camera.delta_scale * (dt * config.scale_friction) =
            (tickSeq config dt w s n).camera.delta_scale *
              (1 - dt * config.scale_friction) := by ring
        rw [e, abs_mul, abs_of_pos hpos]
        nlinarith
      · exact ih

/-- The amended C10 at the default config with `dt = 1 / 16`, from `delta_scale = 1`. -/
theorem decay_small_step_witness :
    (0 : ℚ) ≤ 1 / 16 ∧ (1 / 16 : ℚ) * Config.default.scale_friction < 1 ∧
      |zoomingRestState.camera.delta_scale| > 1 / 2 ∧
      |(tick Config.default (1 / 16) ⟨800, 600⟩ zoomingRestState).camera.delta_scale| ≤
        |zoomingRestState.camera.delta_scale| ∧
      |(tickSeq Config.default (1 / 16) (fun _ => ⟨800, 600⟩)
        zoomingRestState 100).camera.delta_scale| >
          1 / 2 * (1 - 1 / 16 * Config.default.scale_friction) :=
  have h := decay_small_step Config.default (1 / 16) ⟨800, 600⟩ (fun _ => ⟨800, 600⟩)
    zoomingRestState (by norm_num) (by norm_num [Config.default])
    (by norm_num [Config.default]) (by norm_num [Config.default])
    (by norm_num [Config.default]) (by norm_num [FL_DELTA_RADIUS_DECELERATION])
  ⟨by norm_num, by norm_num [Config.default], by norm_num [zoomingRestState], h.1.1,
    (h.2.2.2.2 (by norm_num [Config.default]) (by norm_num [zoomingRestState]) 100).1⟩

/-! ## C5: the decay converges -/

/-- A sequence that is multiplied by a factor `ρ < 1` whenever it is above a
threshold `T > 0`, and is left alone otherwise, is at or below `T` from some index on. -/
theorem threshold_decay_eventually (m : ℕ → ℚ) (T ρ : ℚ) (hT : 0 < T)
    (hρ1 : ρ < 1) (hstep : ∀ n, m (n + 1) = if T < m n then ρ * m n else m n) :
    ∃ N : ℕ, ∀ n, N ≤ n → m n ≤ T := by
  have hgeo : ∀ n, m n ≤ T ∨ m n = ρ ^ n * m 0 := by
    intro n
    induction n with
    | zero => right; simp
    | succ n ih =>
      by_cases hn : T < m n
      · rcases ih with h | h
        · exact absurd h (not_le.mpr hn)
        · right
          rw [hstep, if_pos hn, h]
          ring
      · left
        rw [hstep, if_neg hn]
        exact not_lt.mp hn
  have hstay : ∀ n, m n ≤ T → ∀ k, m (n + k) ≤ T := by
    intro n hn k
    induction k with
    | zero => exact hn
    | succ k ih =>
      show m (n + k + 1) ≤ T
      rw [hstep, if_neg (not_lt.mpr ih)]
      exact ih
  have hN : ∃ N : ℕ, m N ≤ T := by
    by_cases h0 : m 0 ≤ 0
    · exact ⟨0, le_trans h0 (le_of_lt hT)⟩
    · have hm0 : 0 < m 0 := not_le.mp h0
      obtain ⟨N, hN⟩ := exists_pow_lt_of_lt_one (div_pos hT hm0) hρ1
      refine ⟨N, ?_⟩
      rcases hgeo N with h | h
      · exact h
      · rw [h]
        have := (lt_div_iff₀ hm0).mp hN
        exact le_of_lt this
  obtain ⟨N, hN⟩ := hN
  refine ⟨N, fun n hn => ?_⟩
  obtain ⟨k, rfl⟩ := Nat.exists_eq_add_of_le hn
  exact hstay N hN k

/-- With `0 < a < 2` the factor `1 - a` of one decay step has absolute value below `1`. -/
theorem abs_one_sub_lt_one (a : ℚ) (h0 : 0 < a) (h2 : a < 2) : |1 - a| < 1 := by
  rw [abs_lt]
  constructor <;> linarith

/-- C5, as stated, fails for the default config at `dt = 1`, where
`dt * scale_friction = 4`: from `delta_scale = 1` and no drag, each tick multiplies
`delta_scale` by `1 - 4 = -3`; after one tick `|delta_scale| = 3 > 1`, and after `n` ticks
`delta_scale = (-3) ^ n`, which is never at or below `0.5`. -/
theorem decay_convergence_counterexample :
    (0 : ℚ) < 1 ∧ zoomingRestState.mouse.drag = false ∧
      (tickSeq Config.default 1 (fun _ => ⟨800, 600⟩) zoomingRestState 1).camera.delta_scale
        = -3 ∧
      ¬ |(tickSeq Config.default 1 (fun _ => ⟨800, 600⟩)
          zoomingRestState 1).camera.delta_scale|
        ≤ |(tickSeq Config.default 1 (fun _ => ⟨800, 600⟩)
          zoomingRestState 0).camera.delta_scale| ∧
      ∀ n : ℕ,
        (tickSeq Config.default 1 (fun _ => ⟨800, 600⟩) zoomingRestState n).camera.delta_scale
          = (-3) ^ n ∧
        ¬ |(tickSeq Config.default 1 (fun _ => ⟨800, 600⟩)
          zoomingRestState n).camera.delta_scale| ≤ 1 / 2 := by
  have hall : ∀ n : ℕ,
      (tickSeq Config.default 1 (fun _ => ⟨800, 600⟩) zoomingRestState n).camera.delta_scale
        = (-3) ^ n := by
    intro n
    induction n with
    | zero => norm_num [tickSeq, zoomingRestState]
    | succ n ih =>
      show (tick Config.default 1 ⟨800, 600⟩
        (tickSeq Config.default 1 (fun _ => ⟨800, 600⟩) zoomingRestState n)).camera.delta_scale
          = _
      have hbig : |((-3 : ℚ)) ^ n| > 1 / 2 := by
        rw [abs_pow]
        have : (1 : ℚ) ≤ |(-3 : ℚ)| ^ n := one_le_pow₀ (by norm_num)
        linarith
      rw [tick_delta_scale, ih, if_pos hbig]
      norm_num [Config.default]
      ring
  have hbig : ∀ n : ℕ, ¬ |((-3 : ℚ)) ^ n| ≤ 1 / 2 := by
    intro n
    rw [abs_pow]
    have : (1 : ℚ) ≤ |(-3 : ℚ)| ^ n := one_le_pow₀ (by norm_num)
    intro h
    linarith
  refine ⟨by norm_num, rfl, ?_, ?_, fun n => ⟨hall n, ?_⟩⟩
  · rw [hall 1]
    norm_num
  · rw [hall 1, hall 0]
    norm_num
  · rw [hall n]
    exact hbig n

/-- C5 (amended): for `dt > 0`, with `0 < dt * scale_friction < 2`,
`0 < dt * drag_friction < 2` and `dt * 10 < 2`, and with the mouse not dragging, over the
ticks without events `|delta_scale|`, `|delta_radius|` and the velocity length (compared
on its square) never increase from one tick to the next, and there is a number of ticks
from which on each of them is at or below its threshold (`0.5`, `1.0`, `15.0`) and
`delta_scale`, `delta_radius` and `velocity` no longer change. -/
theorem decay_convergence (config : Config) (dt : ℚ) (w : ℕ → Vec2f) (s : State)
    (hdt : 0 < dt) (hdrag : s.mouse.drag = false)
    (hs0 : 0 < dt * config.scale_friction) (hs2 : dt * config.scale_friction < 2)
    (hd0 : 0 < dt * config.drag_friction) (hd2 : dt * config.drag_friction < 2)
    (hr2 : dt * FL_DELTA_RADIUS_DECELERATION < 2) :
    (∀ n : ℕ,
      |(tickSeq config dt w s (n + 1)).camera.delta_scale| ≤
        |(tickSeq config dt w s n).camera.delta_scale| ∧
      |(tickSeq config dt w s (n + 1)).flash_light.delta_radius| ≤
        |(tickSeq config dt w s n).flash_light.delta_radius| ∧
      (tickSeq config dt w s (n + 1)).camera.velocity.lengthSq ≤
        (tickSeq config dt w s n).camera.velocity.lengthSq) ∧
    ∃ N : ℕ, ∀ n : ℕ, N ≤ n →
      (|(tickSeq config dt w s n).camera.delta_scale| ≤ 1 / 2 ∧
        (tickSeq config dt w s (n + 1)).camera.delta_scale =
          (tickSeq config dt w s n).camera.delta_scale) ∧
      (|(tickSeq config dt w s n).flash_light.delta_radius| ≤ 1 ∧
        (tickSeq config dt w s (n + 1)).flash_light.delta_radius =
          (tickSeq config dt w s n).flash_light.delta_radius) ∧
      ((tickSeq config dt w s n).camera.velocity.lengthSq ≤
          VELOCITY_THRESHOLD * VELOCITY_THRESHOLD ∧
        (tickSeq config dt w s (n + 1)).camera.velocity =
          (tickSeq config dt w s n).camera.velocity) := by
  have hr0 : 0 < dt * FL_DELTA_RADIUS_DECELERATION :=
    mul_pos hdt (by norm_num [FL_DELTA_RADIUS_DECELERATION])
  have ha := abs_one_sub_lt_one _ hs0 hs2
  have hb := abs_one_sub_lt_one _ hd0 hd2
  have hc := abs_one_sub_lt_one _ hr0 hr2
  have hb2 : (1 - dt * config.drag_friction) ^ 2 < 1 := by
    have h := abs_lt.mp hb
    nlinarith
  -- the three recurrences
  have hds : ∀ n, |(tickSeq config dt w s (n + 1)).camera.delta_scale| =
      if 1 / 2 < |(tickSeq config dt w s n).camera.delta_scale| then
        |1 - dt * config.scale_friction| * |(tickSeq config dt w s n).camera.delta_scale|
      else |(tickSeq config dt w s n).camera.delta_scale| := by
    intro n
    show |(tick config dt (w n) (tickSeq config dt w s n)).camera.delta_scale| = _
    rw [tick_delta_scale]
    split_ifs with h1
    · rw [← abs_mul]
      congr 1
      ring
    · rfl
  have hdr : ∀ n, |(tickSeq config dt w s (n + 1)).flash_light.delta_radius| =
      if 1 < |(tickSeq config dt w s n).flash_light.delta_radius| then
        |1 - dt * FL_DELTA_RADIUS_DECELERATION| *
          |(tickSeq config dt w s n).flash_light.delta_radius|
      else |(tickSeq config dt w s n).flash_light.delta_radius| := by
    intro n
    show |(tick config dt (w n) (tickSeq config dt w s n)).flash_light.delta_radius| = _
    rw [tick_delta_radius]
    split_ifs with h1
    · rw [← abs_mul]
      congr 1
      ring
    · rfl
  have hvel : ∀ n, (tickSeq config dt w s (n + 1)).camera.velocity.lengthSq =
      if VELOCITY_THRESHOLD * VELOCITY_THRESHOLD <
          (tickSeq config dt w s n).camera.velocity.lengthSq then
        (1 - dt * config.drag_friction) ^ 2 *
          (tickSeq config dt w s n).camera.velocity.lengthSq
      else (tickSeq config dt w s n).camera.velocity.lengthSq := by
    intro n
    show (tick config dt (w n) (tickSeq config dt w s n)).camera.velocity.lengthSq = _
    rw [tick_velocity, tickSeq_mouse, hdrag]
    split_ifs with h1 h2 h2
    · simp only [Vec2f.lengthSq]
      ring
    · exact absurd h1.2 h2
    · exact absurd ⟨rfl, h2⟩ h1
    · rfl
  constructor
  · intro n
    refine ⟨?_, ?_, ?_⟩
    · rw [hds]
      split_ifs
      · nlinarith [abs_nonneg (tickSeq config dt w s n).camera.delta_scale,
          abs_nonneg (1 - dt * config.scale_friction)]
      · exact le_refl _
    · rw [hdr]
      split_ifs
      · nlinarith [abs_nonneg (tickSeq config dt w s n).flash_light.delta_radius,
          abs_nonneg (1 - dt * FL_DELTA_RADIUS_DECELERATION)]
      · exact le_refl _
    · rw [hvel]
      split_ifs
      · nlinarith [Vec2f.lengthSq_nonneg (tickSeq config dt w s n).camera.velocity,
          sq_nonneg (1 - dt * config.drag_friction)]
      · exact le_refl _
  · obtain ⟨N1, hN1⟩ := threshold_decay_eventually
      (fun n => |(tickSeq config dt w s n).camera.delta_scale|) (1 / 2)
      |1 - dt * config.scale_friction| (by norm_num) ha hds
    obtain ⟨N2, hN2⟩ := threshold_decay_eventually
      (fun n => |(tickSeq config dt w s n).flash_light.delta_radius|) 1
      |1 - dt * FL_DELTA_RADIUS_DECELERATION| (by norm_num) hc hdr
    obtain ⟨N3, hN3⟩ := threshold_decay_eventually
      (fun n => (tickSeq config dt w s n).camera.velocity.lengthSq)
      (VELOCITY_THRESHOLD * VELOCITY_THRESHOLD) ((1 - dt * config.drag_friction) ^ 2)
      (by norm_num [VELOCITY_THRESHOLD]) hb2 hvel
    refine ⟨max N1 (max N2 N3), fun n hn => ⟨⟨hN1 n ?_, ?_⟩, ⟨hN2 n ?_, ?_⟩, ⟨hN3 n ?_, ?_⟩⟩⟩
    · exact le_trans (le_max_left _ _) hn
    · have h := hN1 n (le_trans (le_max_left _ _) hn)
      show (tick config dt (w n) (tickSeq config dt w s n)).camera.delta_scale = _
      rw [tick_delta_scale, if_neg (not_lt.mpr h)]
    · exact le_trans (le_trans (le_max_left _ _) (le_max_right _ _)) hn
    · have h := hN2 n (le_trans (le_trans (le_max_left _ _) (le_max_right _ _)) hn)
      show (tick config dt (w n) (tickSeq config dt w s n)).flash_light.delta_radius = _
      rw [tick_delta_radius, if_neg (not_lt.mpr h)]
    · exact le_trans (le_trans (le_max_right _ _) (le_max_right _ _)) hn
    · have h := hN3 n (le_trans (le_trans (le_max_right _ _) (le_max_right _ _)) hn)
      show (tick config dt (w n) (tickSeq config dt w s n)).camera.velocity = _
      rw [tick_velocity, if_neg (fun hcon => absurd hcon.2 (not_lt.mpr h))]

/-- The amended C5 at the default config with `dt = 1 / 16`, from `delta_scale = 1` at
rest: the magnitudes never increase and are eventually below their thresholds. -/
theorem decay_convergence_witness :
    ((0 : ℚ) < 1 / 16 ∧ zoomingRestState.mouse.drag = false ∧
      (0 : ℚ) < 1 / 16 * Config.default.scale_friction ∧
      (1 / 16 : ℚ) * Config.default.scale_friction < 2 ∧
      (0 : ℚ) < 1 / 16 * Config.default.drag_friction ∧
      (1 / 16 : ℚ) * Config.default.drag_friction < 2 ∧
      (1 / 16 : ℚ) * FL_DELTA_RADIUS_DECELERATION < 2) ∧
    (∀ n : ℕ,
      |(tickSeq Config.default (1 / 16) (fun _ => ⟨800, 600⟩)
          zoomingRestState (n + 1)).camera.delta_scale| ≤
        |(tickSeq Config.default (1 / 16) (fun _ => ⟨800, 600⟩)
          zoomingRestState n).camera.delta_scale|) ∧
    ∃ N : ℕ, ∀ n : ℕ, N ≤ n →
      |(tickSeq Config.default (1 / 16) (fun _ => ⟨800, 600⟩)
          zoomingRestState n).camera.delta_scale| ≤ 1 / 2 ∧
        (tickSeq Config.default (1 / 16) (fun _ => ⟨800, 600⟩)
          zoomingRestState (n + 1)).camera.delta_scale =
        (tickSeq Config.default (1 / 16) (fun _ => ⟨800, 600⟩)
          zoomingRestState n).camera.delta_scale := by
  have hyp : (0 : ℚ) < 1 / 16 ∧ zoomingRestState.mouse.drag = false ∧
      (0 : ℚ) < 1 / 16 * Config.default.scale_friction ∧
      (1 / 16 : ℚ) * Config.default.scale_friction < 2 ∧
      (0 : ℚ) < 1 / 16 * Config.default.drag_friction ∧
      (1 / 16 : ℚ) * Config.default.drag_friction < 2 ∧
      (1 / 16 : ℚ) * FL_DELTA_RADIUS_DECELERATION < 2 := by
    refine ⟨by norm_num, rfl, ?_, ?_, ?_, ?_, ?_⟩ <;>
      norm_num [Config.default, FL_DELTA_RADIUS_DECELERATION]
  obtain ⟨h1, h2, h3, h4, h5, h6, h7⟩ := hyp
  obtain ⟨hmono, N, hN⟩ := decay_convergence Config.default (1 / 16) (fun _ => ⟨800, 600⟩)
    zoomingRestState h1 h2 h3 h4 h5 h6 h7
  exact ⟨⟨h1, h2, h3, h4, h5, h6, h7⟩, fun n => (hmono n).1, N, fun n hn => (hN n hn).1⟩

end Coomer
